import Mathlib

/-!
Verification of `oplogreplay` (`src/oplogreplay/oplogreplayer.py`) against its
natural-language specification.

The embedding models:
  * BSON-ish documents as association lists of field name to value;
  * the destination mongo connection as a map from `(database, collection)`
    names to collections (lists of documents);
  * the pymongo-era write primitives `insert` / `update` / `remove`, with the
    `safe` write-concern flag: with `safe=True` a server-side failure (or a
    duplicate-key rejection) raises, with `safe=False` the call returns
    without surfacing server-side failures (fire-and-forget);
  * the `OplogReplayer` methods `_get_lastts`, `_update_lastts`,
    `process_op`, `_dest_coll`, `insert`, `update`, `delete` directly from
    the source;
  * the consume loop of the external `oplogwatcher` dependency, modelled
    from the spec (sequential dispatch, exceptions propagate and stop the
    run).

Environment failures of the destination server are made explicit as boolean
oracles (`applyFails`, `ckptFails`): whether a given server-side write
attempt fails for environmental reasons.  Duplicate-key rejection is not an
oracle: it is determined by the data.
-/

namespace OplogReplay

/-- A mongo oplog timestamp: seconds plus a same-second increment. -/
structure Timestamp where
  time : Nat
  inc : Nat
deriving DecidableEq

/-- Total order on oplog timestamps: lexicographic on (time, inc). -/
def Timestamp.Le (a b : Timestamp) : Prop :=
  a.time < b.time ∨ (a.time = b.time ∧ a.inc ≤ b.inc)

instance (a b : Timestamp) : Decidable (Timestamp.Le a b) := by
  unfold Timestamp.Le
  infer_instance

/-- A field value in a document. -/
inductive Value where
  | vNull
  | vStr : String → Value
  | vInt : Int → Value
  | vTs : Timestamp → Value
deriving DecidableEq

/-- A document: an association list of field names to values. -/
abbrev Document := List (String × Value)

/-- Look up a field of a document (first occurrence of the name). -/
def lookupField (d : Document) (k : String) : Option Value :=
  match d with
  | [] => none
  | (k', v) :: rest => if k' = k then some v else lookupField rest k

/-- Set a field of a document: replace the first occurrence of the name,
or append the field if the name is absent. -/
def setField (d : Document) (k : String) (v : Value) : Document :=
  match d with
  | [] => [(k, v)]
  | (k', v') :: rest =>
    if k' = k then (k, v) :: rest else (k', v') :: setField rest k v

/-- Selector match: every equality pair of the selector holds in the
document (the equality-only subset of mongo query matching that the
oplog uses). -/
def matchesSel (sel : Document) (d : Document) : Bool :=
  sel.all (fun kv => decide (lookupField d kv.1 = some kv.2))

/-- An update mutation: either a field-level patch (the oplog's `$set`
style document) or a full replacement document. -/
inductive Mutation where
  | setFields : List (String × Value) → Mutation
  | replace : Document → Mutation
deriving DecidableEq

/-- Apply a mutation to one matched document.  A replacement keeps the
original `_id`, as the destination store does. -/
def applyMutation (m : Mutation) (d : Document) : Document :=
  match m with
  | .setFields fs => fs.foldl (fun acc kv => setField acc kv.1 kv.2) d
  | .replace nd =>
    match lookupField d "_id" with
    | some i => setField nd "_id" i
    | none => nd

/-- A collection of the destination store. -/
abbrev Coll := List Document

/-- Exceptions of the embedded slice of the program. -/
inductive Err where
  | duplicateKey
  | operationFailure
  | valueError
  | keyError
deriving DecidableEq

/-- Does the collection contain a document with this `_id`? -/
def hasId (c : Coll) (i : Value) : Bool :=
  c.any (fun d => decide (lookupField d "_id" = some i))

/-- `collection.insert(doc, safe=safe)` of the destination store.  A
server-side environmental failure (`serverFails`) loses the write; a
duplicate `_id` is rejected by the unique index.  Either condition is
surfaced as an exception only when `safe` is set. -/
def mongoInsert (safe serverFails : Bool) (c : Coll) (doc : Document) :
    Except Err Coll :=
  if serverFails then
    if safe then .error .operationFailure else .ok c
  else
    match lookupField doc "_id" with
    | some i =>
      if hasId c i then
        if safe then .error .duplicateKey else .ok c
      else .ok (c ++ [doc])
    | none => .ok (c ++ [doc])

/-- Replace the first document matching `sel` by its mutated form. -/
def updateFirstMatch (sel : Document) (m : Mutation) : Coll → Coll
  | [] => []
  | d :: rest =>
    if matchesSel sel d then applyMutation m d :: rest
    else d :: updateFirstMatch sel m rest

/-- The document created by an upserting update that matched nothing:
the equality fields of the selector with the mutation applied. -/
def upsertDocOf (sel : Document) (m : Mutation) : Document :=
  match m with
  | .setFields fs => fs.foldl (fun acc kv => setField acc kv.1 kv.2) sel
  | .replace nd => nd

/-- `collection.update(sel, mod, upsert=upsert, safe=safe)` of the
destination store (default single-document semantics).  Zero matches
without `upsert` is a no-op success, never an error. -/
def mongoUpdate (safe upsert serverFails : Bool) (c : Coll) (sel : Document)
    (m : Mutation) : Except Err Coll :=
  if serverFails then
    if safe then .error .operationFailure else .ok c
  else if c.any (matchesSel sel) then .ok (updateFirstMatch sel m c)
  else if upsert then .ok (c ++ [upsertDocOf sel m])
  else .ok c

/-- `collection.remove(sel, safe=safe)`: removes every matching document;
zero matches is a no-op success. -/
def mongoRemove (safe serverFails : Bool) (c : Coll) (sel : Document) :
    Except Err Coll :=
  if serverFails then
    if safe then .error .operationFailure else .ok c
  else .ok (c.filter (fun d => ! matchesSel sel d))

/-- Split a character list at its first dot, as Python's
`ns.split('.', 1)`: the part before the first dot and everything after it
(which may itself contain dots).  `none` when there is no dot, in which
case the two-variable unpacking in the source raises `ValueError`. -/
def splitFirstDot : List Char → Option (List Char × List Char)
  | [] => none
  | c :: rest =>
    if c = '.' then some ([], rest)
    else
      match splitFirstDot rest with
      | none => none
      | some p => some (c :: p.1, p.2)

/-- `db, collection = ns.split('.', 1)` of `OplogReplayer._dest_coll`:
the destination `(database, collection)` key addressed by a namespace. -/
def destCollKey (ns : String) : Option (String × String) :=
  match splitFirstDot ns.toList with
  | none => none
  | some p => some (String.mk p.1, String.mk p.2)

/-- One logged mutation's payload, by operation kind. -/
inductive OpPayload where
  | insertOp : Document → OpPayload
  | updateOp : Document → Mutation → OpPayload
  | deleteOp : Document → OpPayload
deriving DecidableEq

/-- A change record of the oplog: namespace, ordering token, payload. -/
structure ChangeRecord where
  ns : String
  ts : Timestamp
  payload : OpPayload
deriving DecidableEq

/-- The destination store: every collection, keyed by database name and
collection name. -/
abbrev DestStore := (String × String) → Coll

/-- Write one collection of the destination store. -/
def storeSet (dest : DestStore) (k : String × String) (c : Coll) : DestStore :=
  fun k' => if k' = k then c else dest k'

/-- The collection holding the checkpoint document:
`dest.oplogreplay.settings`. -/
def settingsKey : String × String := ("oplogreplay", "settings")

/-- `'%s-lastts' % replicaset`: the `_id` of the checkpoint document. -/
def lasttsId (replicaset : String) : String := replicaset ++ "-lastts"

/-- The selector `{'_id': self._lastts_id}`. -/
def idSelector (replicaset : String) : Document :=
  [("_id", Value.vStr (lasttsId replicaset))]

/-- The mutable state of an `OplogReplayer`: the destination store, the
replica-set name, `self.ts` (the token of the current/last record, `none`
before anything was seen), and `self._replay_count`. -/
structure ReplayerState where
  dest : DestStore
  replicaset : String
  ts : Option Timestamp
  replay_count : Nat

/-- Python `None` becomes a null value when stored. -/
def tsValue : Option Timestamp → Value
  | none => .vNull
  | some t => .vTs t

/-- One emitted progress observation of `print_replication_info`. -/
structure ProgressInfo where
  delay : Int
  count : Nat
deriving DecidableEq

namespace OplogReplayer

/-- `OplogReplayer.print_replication_info`:
`delay = int(time.time()) - self.ts.time`, and the cumulative replay
count; `t` is the value of `self.ts` at the call. -/
def print_replication_info (now : Nat) (t : Timestamp) (count : Nat) :
    ProgressInfo :=
  { delay := (now : Int) - (t.time : Int), count := count }

/-- `OplogReplayer._get_lastts`: read the checkpoint document
`{'_id': self._lastts_id}` from `dest.oplogreplay.settings`; `None` when
absent, else `obj['value']` (a `KeyError` if a found document lacks the
field). -/
def get_lastts (s : ReplayerState) : Except Err (Option Value) :=
  match (s.dest settingsKey).find? (matchesSel (idSelector s.replicaset)) with
  | none => .ok none
  | some obj =>
    match lookupField obj "value" with
    | some v => .ok (some v)
    | none => .error .keyError

/-- `OplogReplayer._update_lastts`: upsert
`{'$set': {'value': self.ts}}` at `{'_id': self._lastts_id}` into
`dest.oplogreplay.settings`.  The source passes no `safe=True` here, so
the write is unacknowledged: `safe` is `false`. -/
def update_lastts (ckptFails : Bool) (s : ReplayerState) :
    Except Err ReplayerState :=
  match mongoUpdate false true ckptFails (s.dest settingsKey)
      (idSelector s.replicaset)
      (.setFields [("value", tsValue s.ts)]) with
  | .error e => .error e
  | .ok c => .ok { s with dest := storeSet s.dest settingsKey c }

/-- Calling one write method on `self._dest_coll(ns)`: resolve the
destination collection (raising `ValueError` on an undotted namespace),
run the write on it, and store the written collection back. -/
def onColl (dest : DestStore) (ns : String)
    (write : Coll → Except Err Coll) : Except Err DestStore :=
  match destCollKey ns with
  | none => .error .valueError
  | some k =>
    match write (dest k) with
    | .error e => .error e
    | .ok c => .ok (storeSet dest k c)

/-- `OplogReplayer.insert`: `self._dest_coll(ns).insert(raw['o'], safe=True)`. -/
def insert (serverFails : Bool) (dest : DestStore) (ns : String)
    (o : Document) : Except Err DestStore :=
  onColl dest ns (fun c => mongoInsert true serverFails c o)

/-- `OplogReplayer.update`:
`self._dest_coll(ns).update(raw['o2'], raw['o'], safe=True)`. -/
def update (serverFails : Bool) (dest : DestStore) (ns : String)
    (o2 : Document) (m : Mutation) : Except Err DestStore :=
  onColl dest ns (fun c => mongoUpdate true false serverFails c o2 m)

/-- `OplogReplayer.delete`: `self._dest_coll(ns).remove(raw['o'], safe=True)`. -/
def delete (serverFails : Bool) (dest : DestStore) (ns : String)
    (o : Document) : Except Err DestStore :=
  onColl dest ns (fun c => mongoRemove true serverFails c o)

/-- Dispatch of one record to the handler of its operation kind. -/
def applyRecord (applyFails : Bool) (dest : DestStore) (r : ChangeRecord) :
    Except Err DestStore :=
  match r.payload with
  | .insertOp o => insert applyFails dest r.ns o
  | .updateOp o2 m => update applyFails dest r.ns o2 m
  | .deleteOp o => delete applyFails dest r.ns o

/-- Modelled from the spec: `OplogWatcher.process_op` of the external
`oplogwatcher` dependency (not part of this repository) dispatches one
record to the operation-specific handler and records the record's
ordering token as `self.ts`, so that the subsequent checkpoint save
persists `record.orderingToken`. -/
def watcher_process_op (applyFails : Bool) (s : ReplayerState)
    (r : ChangeRecord) : Except Err ReplayerState :=
  match applyRecord applyFails s.dest r with
  | .error e => .error e
  | .ok dest' => .ok { s with dest := dest', ts := some r.ts }

/-- The environment of one record's processing: whether the destination
server fails the applier write, whether it fails the checkpoint write,
and the wall clock at the step. -/
structure Env where
  applyFails : Bool
  ckptFails : Bool
  now : Nat
deriving DecidableEq

/-- `OplogReplayer.process_op`: dispatch via the superclass, then
`self._update_lastts()`, then `self._replay_count += 1`, then every
100th record `self.print_replication_info()` (at that point `self.ts`
is the token of the record just applied). -/
def process_op (env : Env) (s : ReplayerState) (r : ChangeRecord) :
    Except Err (ReplayerState × Option ProgressInfo) :=
  match watcher_process_op env.applyFails s r with
  | .error e => .error e
  | .ok s1 =>
    match update_lastts env.ckptFails s1 with
    | .error e => .error e
    | .ok s2 =>
      let s3 := { s2 with replay_count := s2.replay_count + 1 }
      if s3.replay_count % 100 = 0 then
        .ok (s3, some (print_replication_info env.now r.ts s3.replay_count))
      else .ok (s3, none)

/-- The state after one `process_op`, the state itself when the call
raised (the exception propagates before any further mutation). -/
def stateAfter (env : Env) (s : ReplayerState) (r : ChangeRecord) :
    ReplayerState :=
  match process_op env s r with
  | .error _ => s
  | .ok (s', _) => s'

/-- Modelled from the spec: the consume loop of the external
`OplogWatcher` reads records strictly in order and calls `process_op` on
each; an exception from `process_op` propagates and stops the run, with
the records after the failing one never read. -/
def runLoop (s : ReplayerState) :
    List (Env × ChangeRecord) → ReplayerState × List ProgressInfo × Option Err
  | [] => (s, [], none)
  | (env, r) :: rest =>
    match process_op env s r with
    | .error e => (s, [], some e)
    | .ok (s', info) =>
      let res := runLoop s' rest
      (res.1, info.toList ++ res.2.1, res.2.2)

/-- The states a run passes through: the initial state and the state
after each successfully processed record (the run stops at a failure). -/
def runStates (s : ReplayerState) :
    List (Env × ChangeRecord) → List ReplayerState
  | [] => [s]
  | (env, r) :: rest =>
    match process_op env s r with
    | .error _ => [s]
    | .ok (s', _) => s :: runStates s' rest

/-- The records a run actually applies, in order. -/
def appliedRecords (s : ReplayerState) :
    List (Env × ChangeRecord) → List ChangeRecord
  | [] => []
  | (env, r) :: rest =>
    match process_op env s r with
    | .error _ => []
    | .ok (s', _) => r :: appliedRecords s' rest

end OplogReplayer

/-- The stored checkpoint token: the `value` field of the checkpoint
document of this replica set, as it stands in the destination store. -/
def storedCkpt (dest : DestStore) (replicaset : String) : Option Value :=
  match (dest settingsKey).find? (matchesSel (idSelector replicaset)) with
  | none => none
  | some obj => lookupField obj "value"

/-- The stored checkpoint of a replayer state. -/
def ckptAt (s : ReplayerState) : Option Value :=
  storedCkpt s.dest s.replicaset

/-- An environment without destination-server failures. -/
def goodEnv (now : Nat) : OplogReplayer.Env :=
  { applyFails := false, ckptFails := false, now := now }

/-- An environment where the server fails the checkpoint write. -/
def ckptFailEnv (now : Nat) : OplogReplayer.Env :=
  { applyFails := false, ckptFails := true, now := now }

/-- An empty destination store. -/
def emptyDest : DestStore := fun _ => []

/-- A fresh replayer against an empty destination, replica set
`testsource` (as the repository's test suite), no checkpoint yet. -/
def initState : ReplayerState :=
  { dest := emptyDest, replicaset := "testsource", ts := none,
    replay_count := 0 }

/-- The example insert payload of the source's docstring. -/
def tweetDoc : Document :=
  [("_id", Value.vInt 1), ("content", Value.vStr "Lorem ipsum"),
   ("nr", Value.vInt 16)]

/-- An insert change record for `mydb.tweets`. -/
def insRec : ChangeRecord :=
  { ns := "mydb.tweets", ts := { time := 10, inc := 1 },
    payload := .insertOp tweetDoc }

/-- The pure result of the (always succeeding) unacknowledged upsert that
`_update_lastts` issues when the server does not fail it. -/
def savedColl (c : Coll) (sel : Document) (m : Mutation) : Coll :=
  if c.any (matchesSel sel) then updateFirstMatch sel m c
  else c ++ [upsertDocOf sel m]

/-- The checkpoint value readable from one settings collection. -/
def collCkpt (c : Coll) (replicaset : String) : Option Value :=
  match c.find? (matchesSel (idSelector replicaset)) with
  | none => none
  | some obj => lookupField obj "value"

namespace OplogReplayer

/-- The state produced by a (server-successful) `_update_lastts`. -/
def savedState (s : ReplayerState) : ReplayerState :=
  { s with
    dest := storeSet s.dest settingsKey
      (savedColl (s.dest settingsKey) (idSelector s.replicaset)
        (.setFields [("value", tsValue s.ts)])) }

/-- The state after `_update_lastts`, for either server outcome: a
failed (unacknowledged) write leaves the settings collection as it was,
and the caller is not told. -/
def savedStateE (ckptFails : Bool) (s : ReplayerState) : ReplayerState :=
  if ckptFails then
    { s with dest := storeSet s.dest settingsKey (s.dest settingsKey) }
  else savedState s

/-- The collection-level write a payload performs, as the appliers
issue it. -/
def opWrite (serverFails : Bool) (p : OpPayload) : Coll → Except Err Coll :=
  fun c =>
    match p with
    | .insertOp o => mongoInsert true serverFails c o
    | .updateOp o2 m => mongoUpdate true false serverFails c o2 m
    | .deleteOp o => mongoRemove true serverFails c o

end OplogReplayer

/-- The number of checkpoint rows of this replica set. -/
def ckptRowCount (s : ReplayerState) : Nat :=
  (s.dest settingsKey).countP (matchesSel (idSelector s.replicaset))

/-- Order on stored checkpoint values: an absent checkpoint precedes
everything; token values are ordered by `Timestamp.Le`. -/
def leOV (a b : Option Value) : Bool :=
  match a, b with
  | none, _ => true
  | some (.vTs x), some (.vTs y) => decide (Timestamp.Le x y)
  | some _, _ => false

/-- The stored checkpoint at every point of a run. -/
def ckptTrace (s : ReplayerState)
    (steps : List (OplogReplayer.Env × ChangeRecord)) : List (Option Value) :=
  (OplogReplayer.runStates s steps).map ckptAt

/-- A second insert record, later token, distinct identifier. -/
def insRec2 : ChangeRecord :=
  { ns := "mydb.tweets", ts := { time := 11, inc := 2 },
    payload := .insertOp
      [("_id", Value.vInt 2), ("content", Value.vStr "more"),
       ("nr", Value.vInt 17)] }

/-- The spec's concrete scenario 2: an update whose selector
(`nr = 97`) matches nothing. -/
def updRec97 : ChangeRecord :=
  { ns := "testdb.testcoll", ts := { time := 12, inc := 1 },
    payload := .updateOp [("nr", Value.vInt 97)]
      (.setFields [("content", Value.vStr "newContent")]) }

/-- A record whose namespace has no dot. -/
def noDotRec : ChangeRecord :=
  { ns := "mydbtweets", ts := { time := 13, inc := 1 },
    payload := .insertOp [("_id", Value.vInt 3)] }

/-- A replayer that has already applied 99 records. -/
def s99 : ReplayerState := { initState with replay_count := 99 }

/-- A concrete two-record run. -/
def runSteps2 : List (OplogReplayer.Env × ChangeRecord) :=
  [(goodEnv 20, insRec), (goodEnv 30, insRec2)]

/-! ### Helper lemmas about documents and collections -/

theorem Timestamp.Le.trans {a b c : Timestamp}
    (h1 : Timestamp.Le a b) (h2 : Timestamp.Le b c) : Timestamp.Le a c := by
  rcases h1 with h1 | ⟨h1, h1'⟩ <;> rcases h2 with h2 | ⟨h2, h2'⟩ <;>
    unfold Timestamp.Le <;> omega

theorem lookupField_setField_self (d : Document) (k : String) (v : Value) :
    lookupField (setField d k v) k = some v := by
  induction d with
  | nil => simp [setField, lookupField]
  | cons kv rest ih =>
    by_cases h : kv.1 = k
    · simp [setField, h, lookupField]
    · simp [setField, h, lookupField, ih]

theorem lookupField_setField_ne (d : Document) {k k' : String} (v : Value)
    (h : k' ≠ k) : lookupField (setField d k v) k' = lookupField d k' := by
  induction d with
  | nil => simp [setField, lookupField, Ne.symm h]
  | cons kv rest ih =>
    by_cases hk : kv.1 = k
    · simp [setField, hk, lookupField, Ne.symm h, fun h' => Ne.symm h (hk ▸ h')]
    · simp only [setField, hk, if_false, lookupField]
      by_cases hk' : kv.1 = k'
      · simp [hk']
      · simp [hk', ih]

theorem setField_setField_self (d : Document) (k : String) (v : Value) :
    setField (setField d k v) k v = setField d k v := by
  induction d with
  | nil => simp [setField]
  | cons kv rest ih =>
    by_cases h : kv.1 = k
    · simp [setField, h]
    · simp [setField, h, ih]

theorem matchesSel_singleton (k : String) (v : Value) (d : Document) :
    matchesSel [(k, v)] d = true ↔ lookupField d k = some v := by
  simp [matchesSel]

theorem matchesSel_idSelector (rs : String) (d : Document) :
    matchesSel (idSelector rs) d = true ↔
      lookupField d "_id" = some (Value.vStr (lasttsId rs)) := by
  simp [idSelector, matchesSel]

theorem matchesSel_idSelector_setField_value (rs : String) (d : Document)
    (v : Value) (h : matchesSel (idSelector rs) d = true) :
    matchesSel (idSelector rs) (setField d "value" v) = true := by
  rw [matchesSel_idSelector] at h ⊢
  rw [lookupField_setField_ne d v (by decide)]
  exact h

theorem find?_append_of_any_false {c l : Coll} {p : Document → Bool}
    (h : c.any p = false) : (c ++ l).find? p = l.find? p := by
  induction c with
  | nil => simp
  | cons d rest ih =>
    simp only [List.any_cons, Bool.or_eq_false_iff] at h
    simp [List.find?_cons_of_neg, h.1, ih h.2]

theorem filter_append_single_false {c : Coll} {nd : Document}
    {p : Document → Bool} (h : p nd = false) :
    (c ++ [nd]).filter p = c.filter p := by
  simp [List.filter_append, List.filter, h]

/-! ### Helper lemmas about the checkpoint save -/

theorem mongoUpdate_unsafe_ok (c : Coll) (sel : Document) (m : Mutation) :
    mongoUpdate false true false c sel m = .ok (savedColl c sel m) := by
  cases h : c.any (matchesSel sel) <;> simp [mongoUpdate, savedColl, h]

theorem savedColl_of_any_true {c : Coll} {sel : Document} {m : Mutation}
    (h : c.any (matchesSel sel) = true) :
    savedColl c sel m = updateFirstMatch sel m c := by
  unfold savedColl
  rw [h, if_pos rfl]

theorem savedColl_of_any_false {c : Coll} {sel : Document} {m : Mutation}
    (h : c.any (matchesSel sel) = false) :
    savedColl c sel m = c ++ [upsertDocOf sel m] := by
  unfold savedColl
  rw [h, if_neg Bool.false_ne_true]

theorem storedCkpt_eq_collCkpt (dest : DestStore) (rs : String) :
    storedCkpt dest rs = collCkpt (dest settingsKey) rs := rfl

theorem upsertDocOf_idSelector (rs : String) (v : Value) :
    upsertDocOf (idSelector rs) (.setFields [("value", v)])
      = [("_id", Value.vStr (lasttsId rs)), ("value", v)] := by
  simp [upsertDocOf, idSelector, setField]

theorem collCkpt_savedColl (c : Coll) (rs : String) (v : Value) :
    collCkpt (savedColl c (idSelector rs) (.setFields [("value", v)])) rs
      = some v := by
  unfold savedColl
  cases hany : c.any (matchesSel (idSelector rs)) with
  | false =>
    rw [if_neg (by simp [hany])]
    unfold collCkpt
    rw [find?_append_of_any_false hany, upsertDocOf_idSelector]
    rw [List.find?_cons_of_pos _ (by
      rw [matchesSel_idSelector]
      simp [lookupField])]
    simp [lookupField]
  | true =>
    rw [if_pos (by simp [hany])]
    induction c with
    | nil => simp at hany
    | cons d rest ih =>
      cases hd : matchesSel (idSelector rs) d with
      | true =>
        unfold updateFirstMatch
        rw [if_pos (by simp [hd])]
        have happ : applyMutation (.setFields [("value", v)]) d
            = setField d "value" v := rfl
        unfold collCkpt
        rw [happ, List.find?_cons_of_pos _
          (matchesSel_idSelector_setField_value rs d v hd)]
        simp [lookupField_setField_self]
      | false =>
        unfold updateFirstMatch
        rw [if_neg (by simp [hd])]
        have hrest : rest.any (matchesSel (idSelector rs)) = true := by
          simp only [List.any_cons, hd, Bool.false_or] at hany
          exact hany
        unfold collCkpt
        rw [List.find?_cons_of_neg _ (by simp [hd])]
        exact ih hrest

theorem filter_updateFirstMatch (c : Coll) (rs : String) (v : Value) :
    (updateFirstMatch (idSelector rs) (.setFields [("value", v)]) c).filter
        (fun d => ! matchesSel (idSelector rs) d)
      = c.filter (fun d => ! matchesSel (idSelector rs) d) := by
  induction c with
  | nil => simp [updateFirstMatch]
  | cons d rest ih =>
    cases hd : matchesSel (idSelector rs) d with
    | true =>
      unfold updateFirstMatch
      rw [if_pos (by simp [hd])]
      have happ : applyMutation (.setFields [("value", v)]) d
          = setField d "value" v := rfl
      rw [happ]
      rw [List.filter_cons_of_neg (by
        simp [matchesSel_idSelector_setField_value rs d v hd])]
      rw [List.filter_cons_of_neg (by simp [hd])]
    | false =>
      unfold updateFirstMatch
      rw [if_neg (by simp [hd])]
      rw [List.filter_cons_of_pos (by simp [hd]),
        List.filter_cons_of_pos (by simp [hd]), ih]

theorem filter_savedColl (c : Coll) (rs : String) (v : Value) :
    (savedColl c (idSelector rs) (.setFields [("value", v)])).filter
        (fun d => ! matchesSel (idSelector rs) d)
      = c.filter (fun d => ! matchesSel (idSelector rs) d) := by
  unfold savedColl
  cases hany : c.any (matchesSel (idSelector rs)) with
  | false =>
    rw [if_neg (by simp [hany])]
    rw [filter_append_single_false]
    rw [upsertDocOf_idSelector]
    simp [matchesSel_idSelector, lookupField]
  | true =>
    rw [if_pos (by simp [hany])]
    exact filter_updateFirstMatch c rs v

/-! ### Helper lemmas about the replayer's state transitions -/

namespace OplogReplayer

theorem update_lastts_eq_ok (s : ReplayerState) :
    update_lastts false s = .ok (savedState s) := by
  unfold update_lastts savedState
  rw [mongoUpdate_unsafe_ok]

theorem ckptAt_savedState (s : ReplayerState) :
    ckptAt (savedState s) = some (tsValue s.ts) := by
  unfold ckptAt savedState storedCkpt storeSet
  simp only [if_pos rfl]
  exact collCkpt_savedColl _ _ _

theorem savedState_dest_ne (s : ReplayerState) (k : String × String)
    (hk : k ≠ settingsKey) : (savedState s).dest k = s.dest k := by
  unfold savedState storeSet
  simp [hk]

theorem savedState_filter (s : ReplayerState) :
    ((savedState s).dest settingsKey).filter
        (fun d => ! matchesSel (idSelector s.replicaset) d)
      = (s.dest settingsKey).filter
        (fun d => ! matchesSel (idSelector s.replicaset) d) := by
  unfold savedState storeSet
  simp only [if_pos rfl]
  exact filter_savedColl _ _ _

theorem applyRecord_eq_onColl (af : Bool) (dest : DestStore)
    (r : ChangeRecord) :
    applyRecord af dest r = onColl dest r.ns (opWrite af r.payload) := by
  obtain ⟨ns, ts, p⟩ := r
  cases p <;> rfl

theorem onColl_ok_elim {dest dest' : DestStore} {ns : String}
    {write : Coll → Except Err Coll} (h : onColl dest ns write = .ok dest') :
    ∃ k c, destCollKey ns = some k ∧ write (dest k) = .ok c ∧
      dest' = storeSet dest k c := by
  unfold onColl at h
  cases hns : destCollKey ns with
  | none =>
    simp only [hns] at h
    exact Except.noConfusion h
  | some k =>
    simp only [hns] at h
    cases hw : write (dest k) with
    | error e =>
      simp only [hw] at h
      exact Except.noConfusion h
    | ok c =>
      simp only [hw] at h
      refine ⟨k, c, rfl, hw, ?_⟩
      injection h with h'
      exact h'.symm

theorem applyRecord_frame {af : Bool} {dest dest' : DestStore}
    {r : ChangeRecord} (h : applyRecord af dest r = .ok dest')
    (k : String × String) (hk : destCollKey r.ns ≠ some k) :
    dest' k = dest k := by
  rw [applyRecord_eq_onColl] at h
  obtain ⟨k0, c, hns, _, hd⟩ := onColl_ok_elim h
  rw [hd]
  unfold storeSet
  rw [if_neg (by rw [hns] at hk; intro he; exact hk (by rw [he]))]

/-- A successful applier call presupposes a dotted namespace. -/
theorem applyRecord_ok_dotted {af : Bool} {dest dest' : DestStore}
    {r : ChangeRecord} (h : applyRecord af dest r = .ok dest') :
    ∃ k, destCollKey r.ns = some k := by
  rw [applyRecord_eq_onColl] at h
  obtain ⟨k0, c, hns, _, _⟩ := onColl_ok_elim h
  exact ⟨k0, hns⟩

/-- An applier call on an undotted namespace raises before touching the
destination (the `ns.split('.', 1)` unpacking fails first). -/
theorem applyRecord_no_dot {af : Bool} {dest : DestStore}
    {r : ChangeRecord} (h : destCollKey r.ns = none) :
    applyRecord af dest r = .error .valueError := by
  rw [applyRecord_eq_onColl]
  unfold onColl
  rw [h]

theorem update_lastts_eq (b : Bool) (s : ReplayerState) :
    update_lastts b s = .ok (savedStateE b s) := by
  cases b with
  | false => simp [savedStateE, update_lastts_eq_ok]
  | true =>
    unfold update_lastts savedStateE
    rfl

theorem savedStateE_dest_ne (b : Bool) (s : ReplayerState)
    (k : String × String) (hk : k ≠ settingsKey) :
    (savedStateE b s).dest k = s.dest k := by
  cases b with
  | false => exact savedState_dest_ne s k hk
  | true =>
    unfold savedStateE storeSet
    simp [hk]

/-- Characterization of a successful `process_op` when the server does
not fail the checkpoint write. -/
theorem process_op_good_eq {env : Env} {s : ReplayerState}
    {r : ChangeRecord} {dest' : DestStore} (hck : env.ckptFails = false)
    (ha : applyRecord env.applyFails s.dest r = .ok dest') :
    process_op env s r =
      .ok ({ savedState { s with dest := dest', ts := some r.ts } with
               replay_count := s.replay_count + 1 },
           if (s.replay_count + 1) % 100 = 0 then
             some (print_replication_info env.now r.ts (s.replay_count + 1))
           else none) := by
  unfold process_op watcher_process_op
  rw [ha, hck]
  simp only [update_lastts_eq_ok]
  by_cases hc : (s.replay_count + 1) % 100 = 0 <;> simp [savedState, hc]

/-- A failing applier call fails the whole `process_op` with the same
exception, before the checkpoint or the counter are touched. -/
theorem process_op_apply_error {env : Env} {s : ReplayerState}
    {r : ChangeRecord} {e : Err}
    (ha : applyRecord env.applyFails s.dest r = .error e) :
    process_op env s r = .error e := by
  unfold process_op watcher_process_op
  rw [ha]

theorem process_op_ok_fields {env : Env} {s s' : ReplayerState}
    {r : ChangeRecord} {info : Option ProgressInfo}
    (hck : env.ckptFails = false) (h : process_op env s r = .ok (s', info)) :
    s'.replicaset = s.replicaset ∧ s'.ts = some r.ts ∧
    s'.replay_count = s.replay_count + 1 ∧
    ckptAt s' = some (Value.vTs r.ts) ∧
    info = (if (s.replay_count + 1) % 100 = 0 then
              some (print_replication_info env.now r.ts (s.replay_count + 1))
            else none) := by
  cases ha : applyRecord env.applyFails s.dest r with
  | error e => rw [process_op_apply_error ha] at h; exact absurd h (by simp)
  | ok dest' =>
    rw [process_op_good_eq hck ha] at h
    have hs' : s' = { savedState { s with dest := dest', ts := some r.ts } with
        replay_count := s.replay_count + 1 } := by
      have := h
      simp only [Except.ok.injEq, Prod.mk.injEq] at this
      exact this.1.symm
    have hinfo : info = (if (s.replay_count + 1) % 100 = 0 then
        some (print_replication_info env.now r.ts (s.replay_count + 1))
      else none) := by
      have := h
      simp only [Except.ok.injEq, Prod.mk.injEq] at this
      exact this.2.symm
    subst hs'
    refine ⟨rfl, rfl, rfl, ?_, hinfo⟩
    have hc : ckptAt { savedState { s with dest := dest', ts := some r.ts } with
        replay_count := s.replay_count + 1 }
        = ckptAt (savedState { s with dest := dest', ts := some r.ts }) := rfl
    rw [hc, ckptAt_savedState]
    rfl

/-- Characterization of a successful `process_op` for either checkpoint
write outcome. -/
theorem process_op_eq_of_apply_ok {env : Env} {s : ReplayerState}
    {r : ChangeRecord} {dest' : DestStore}
    (ha : applyRecord env.applyFails s.dest r = .ok dest') :
    process_op env s r =
      .ok ({ savedStateE env.ckptFails { s with dest := dest', ts := some r.ts }
               with replay_count := s.replay_count + 1 },
           if (s.replay_count + 1) % 100 = 0 then
             some (print_replication_info env.now r.ts (s.replay_count + 1))
           else none) := by
  unfold process_op watcher_process_op
  rw [ha]
  simp only [update_lastts_eq]
  by_cases hc : (s.replay_count + 1) % 100 = 0 <;>
    cases hb : env.ckptFails <;> simp [savedStateE, savedState, hc]

/-- Field equations of any successful `process_op`. -/
theorem process_op_ok_fields_any {env : Env} {s s' : ReplayerState}
    {r : ChangeRecord} {info : Option ProgressInfo}
    (h : process_op env s r = .ok (s', info)) :
    s'.replicaset = s.replicaset ∧ s'.ts = some r.ts ∧
    s'.replay_count = s.replay_count + 1 ∧
    info = (if (s.replay_count + 1) % 100 = 0 then
              some (print_replication_info env.now r.ts (s.replay_count + 1))
            else none) := by
  cases ha : applyRecord env.applyFails s.dest r with
  | error e => rw [process_op_apply_error ha] at h; exact absurd h (by simp)
  | ok dest' =>
    rw [process_op_eq_of_apply_ok ha] at h
    have h' := h
    simp only [Except.ok.injEq, Prod.mk.injEq] at h'
    have hs' := h'.1.symm
    have hinfo := h'.2.symm
    subst hs'
    refine ⟨?_, ?_, rfl, hinfo⟩ <;> cases hb : env.ckptFails <;>
      simp [savedStateE, savedState, hb]

end OplogReplayer

/-! ### Helper lemmas for the checkpoint-store contract -/

theorem get_lastts_of_collCkpt_some {s : ReplayerState} {v : Value}
    (h : collCkpt (s.dest settingsKey) s.replicaset = some v) :
    OplogReplayer.get_lastts s = .ok (some v) := by
  unfold collCkpt at h
  unfold OplogReplayer.get_lastts
  cases hf : (s.dest settingsKey).find? (matchesSel (idSelector s.replicaset)) with
  | none =>
    simp only [hf] at h
    exact Option.noConfusion h
  | some obj =>
    simp only [hf] at h
    simp [h]

theorem matchesSel_preserved_value (rs : String) (v : Value) {d : Document}
    (hd : matchesSel (idSelector rs) d = true) :
    matchesSel (idSelector rs)
      (applyMutation (.setFields [("value", v)]) d) = true := by
  have happ : applyMutation (.setFields [("value", v)]) d
      = setField d "value" v := rfl
  rw [happ]
  exact matchesSel_idSelector_setField_value rs d v hd

theorem any_updateFirstMatch (c : Coll) (rs : String) (v : Value)
    (h : c.any (matchesSel (idSelector rs)) = true) :
    (updateFirstMatch (idSelector rs) (.setFields [("value", v)]) c).any
      (matchesSel (idSelector rs)) = true := by
  induction c with
  | nil => simp at h
  | cons d rest ih =>
    cases hd : matchesSel (idSelector rs) d with
    | true =>
      unfold updateFirstMatch
      rw [if_pos (by simp [hd])]
      simp [matchesSel_preserved_value rs v hd]
    | false =>
      unfold updateFirstMatch
      rw [if_neg (by simp [hd])]
      have hrest : rest.any (matchesSel (idSelector rs)) = true := by
        simp only [List.any_cons, hd, Bool.false_or] at h
        exact h
      simp [ih hrest]

theorem updateFirstMatch_append_of_any_false {c l : Coll} {sel : Document}
    (m : Mutation) (h : c.any (matchesSel sel) = false) :
    updateFirstMatch sel m (c ++ l) = c ++ updateFirstMatch sel m l := by
  induction c with
  | nil => simp
  | cons d rest ih =>
    simp only [List.any_cons, Bool.or_eq_false_iff] at h
    have hstep : updateFirstMatch sel m (d :: (rest ++ l))
        = d :: updateFirstMatch sel m (rest ++ l) := by
      simp only [updateFirstMatch, h.1, Bool.false_eq_true, if_false]
    rw [List.cons_append, hstep, ih h.2, List.cons_append]

theorem setField_value_self (rs : String) (v : Value) :
    setField [("_id", Value.vStr (lasttsId rs)), ("value", v)] "value" v
      = [("_id", Value.vStr (lasttsId rs)), ("value", v)] := by
  simp [setField]

theorem updateFirstMatch_idem (c : Coll) (rs : String) (v : Value) :
    updateFirstMatch (idSelector rs) (.setFields [("value", v)])
        (updateFirstMatch (idSelector rs) (.setFields [("value", v)]) c)
      = updateFirstMatch (idSelector rs) (.setFields [("value", v)]) c := by
  induction c with
  | nil => simp [updateFirstMatch]
  | cons d rest ih =>
    cases hd : matchesSel (idSelector rs) d with
    | true =>
      have happ : applyMutation (.setFields [("value", v)]) d
          = setField d "value" v := rfl
      have hd2 : matchesSel (idSelector rs) (setField d "value" v) = true :=
        matchesSel_idSelector_setField_value rs d v hd
      have happ2 : applyMutation (.setFields [("value", v)])
          (setField d "value" v)
          = setField (setField d "value" v) "value" v := rfl
      simp only [updateFirstMatch, hd, if_true, happ, hd2, happ2,
        setField_setField_self]
    | false =>
      simp only [updateFirstMatch, hd, Bool.false_eq_true, if_false, ih]

theorem savedColl_any (c : Coll) (rs : String) (v : Value) :
    (savedColl c (idSelector rs) (.setFields [("value", v)])).any
      (matchesSel (idSelector rs)) = true := by
  cases hany : c.any (matchesSel (idSelector rs)) with
  | true =>
    rw [savedColl_of_any_true hany]
    exact any_updateFirstMatch c rs v hany
  | false =>
    rw [savedColl_of_any_false hany, upsertDocOf_idSelector, List.any_append]
    simp [matchesSel_idSelector, lookupField]

theorem savedColl_idem (c : Coll) (rs : String) (v : Value) :
    savedColl (savedColl c (idSelector rs) (.setFields [("value", v)]))
        (idSelector rs) (.setFields [("value", v)])
      = savedColl c (idSelector rs) (.setFields [("value", v)]) := by
  rw [savedColl_of_any_true (savedColl_any c rs v)]
  cases hany : c.any (matchesSel (idSelector rs)) with
  | true =>
    rw [savedColl_of_any_true hany]
    exact updateFirstMatch_idem c rs v
  | false =>
    rw [savedColl_of_any_false hany]
    rw [updateFirstMatch_append_of_any_false _ hany]
    rw [upsertDocOf_idSelector]
    have hm : matchesSel (idSelector rs)
        [("_id", Value.vStr (lasttsId rs)), ("value", v)] = true := by
      rw [matchesSel_idSelector]
      simp [lookupField]
    have happ : applyMutation (.setFields [("value", v)])
        [("_id", Value.vStr (lasttsId rs)), ("value", v)]
        = setField [("_id", Value.vStr (lasttsId rs)), ("value", v)]
            "value" v := rfl
    simp only [updateFirstMatch, hm, if_true, happ, setField_value_self]

theorem countP_updateFirstMatch (c : Coll) (rs : String) (v : Value) :
    (updateFirstMatch (idSelector rs) (.setFields [("value", v)]) c).countP
        (matchesSel (idSelector rs))
      = c.countP (matchesSel (idSelector rs)) := by
  induction c with
  | nil => simp [updateFirstMatch]
  | cons d rest ih =>
    cases hd : matchesSel (idSelector rs) d with
    | true =>
      unfold updateFirstMatch
      rw [if_pos (by simp [hd])]
      rw [List.countP_cons, List.countP_cons]
      simp [matchesSel_preserved_value rs v hd, hd]
    | false =>
      unfold updateFirstMatch
      rw [if_neg (by simp [hd])]
      rw [List.countP_cons, List.countP_cons, ih]

theorem countP_savedColl (c : Coll) (rs : String) (v : Value) :
    (savedColl c (idSelector rs) (.setFields [("value", v)])).countP
        (matchesSel (idSelector rs))
      = if c.countP (matchesSel (idSelector rs)) = 0 then 1
        else c.countP (matchesSel (idSelector rs)) := by
  cases hany : c.any (matchesSel (idSelector rs)) with
  | true =>
    rw [savedColl_of_any_true hany, countP_updateFirstMatch]
    have hpos : 0 < c.countP (matchesSel (idSelector rs)) := by
      rw [List.countP_pos_iff]
      rw [List.any_eq_true] at hany
      obtain ⟨d, hd, hp⟩ := hany
      exact ⟨d, hd, hp⟩
    rw [if_neg (by omega)]
  | false =>
    rw [savedColl_of_any_false hany]
    have hz : c.countP (matchesSel (idSelector rs)) = 0 := by
      rw [List.countP_eq_zero]
      intro d hd
      rw [List.any_eq_false] at hany
      exact hany d hd
    rw [List.countP_append, hz, upsertDocOf_idSelector]
    simp [List.countP_cons, matchesSel_idSelector, lookupField]

theorem storeSet_get_self (f : DestStore) (k : String × String) (c : Coll) :
    storeSet f k c k = c := by
  unfold storeSet
  simp

theorem storeSet_storeSet (f : DestStore) (k : String × String)
    (a b : Coll) : storeSet (storeSet f k a) k b = storeSet f k b := by
  funext k'
  unfold storeSet
  by_cases h : k' = k <;> simp [h]

theorem ckptRowCount_savedState (s : ReplayerState) :
    ckptRowCount (OplogReplayer.savedState s)
      = if ckptRowCount s = 0 then 1 else ckptRowCount s := by
  unfold ckptRowCount OplogReplayer.savedState
  simp only [storeSet_get_self]
  exact countP_savedColl _ _ _

theorem savedState_savedState (s : ReplayerState) :
    OplogReplayer.savedState (OplogReplayer.savedState s)
      = OplogReplayer.savedState s := by
  simp only [OplogReplayer.savedState, storeSet_get_self, savedColl_idem,
    storeSet_storeSet]

theorem get_lastts_savedState (s : ReplayerState) :
    OplogReplayer.get_lastts (OplogReplayer.savedState s)
      = .ok (some (tsValue s.ts)) := by
  apply get_lastts_of_collCkpt_some
  simp only [OplogReplayer.savedState, storeSet_get_self]
  exact collCkpt_savedColl _ _ _

/-! ### Helper lemmas for zero-match updates and deletes -/

theorem mongoUpdate_zero_match {c : Coll} {sel : Document} {m : Mutation}
    (h : c.any (matchesSel sel) = false) :
    mongoUpdate true false false c sel m = .ok c := by
  simp [mongoUpdate, h]

theorem mongoRemove_zero_match {c : Coll} {sel : Document}
    (h : c.any (matchesSel sel) = false) :
    mongoRemove true false c sel = .ok c := by
  have hf : c.filter (fun d => ! matchesSel sel d) = c :=
    List.filter_eq_self.mpr (fun d hd => by
      rw [List.any_eq_false] at h
      simp [h d hd])
  simp [mongoRemove, hf]

/-! ### Helper lemmas about namespace splitting -/

theorem splitFirstDot_none {l : List Char} :
    splitFirstDot l = none ↔ '.' ∉ l := by
  induction l with
  | nil => simp [splitFirstDot]
  | cons c rest ih =>
    by_cases hc : c = '.'
    · subst hc
      simp [splitFirstDot]
    · simp only [splitFirstDot, if_neg hc]
      cases hs : splitFirstDot rest with
      | none =>
        have hr : '.' ∉ rest := ih.mp hs
        simp [List.mem_cons, Ne.symm hc, hr]
      | some p =>
        have hr : '.' ∈ rest := by
          by_contra hn
          rw [ih.mpr hn] at hs
          exact Option.noConfusion hs
        simp [List.mem_cons, hr]

theorem splitFirstDot_some {l a b : List Char}
    (h : splitFirstDot l = some (a, b)) :
    l = a ++ '.' :: b ∧ '.' ∉ a := by
  induction l generalizing a b with
  | nil => simp [splitFirstDot] at h
  | cons c rest ih =>
    by_cases hc : c = '.'
    · subst hc
      rw [show splitFirstDot ('.' :: rest) = some ([], rest) from by
        simp [splitFirstDot]] at h
      rw [Option.some.injEq, Prod.mk.injEq] at h
      obtain ⟨ha, hb⟩ := h
      subst ha
      subst hb
      exact ⟨rfl, by simp⟩
    · simp only [splitFirstDot, if_neg hc] at h
      cases hs : splitFirstDot rest with
      | none =>
        simp only [hs] at h
        exact Option.noConfusion h
      | some p =>
        simp only [hs] at h
        rw [Option.some.injEq, Prod.mk.injEq] at h
        obtain ⟨ha, hb⟩ := h
        obtain ⟨hl, hna⟩ := @ih p.1 p.2 (by rw [hs])
        subst hb
        constructor
        · rw [← ha, hl]
          rfl
        · rw [← ha]
          simp only [List.mem_cons, not_or]
          exact ⟨fun hco => hc hco.symm, hna⟩

/-! ### Run-loop unfolding equations -/

namespace OplogReplayer

theorem runLoop_cons_error {env : Env} {s : ReplayerState}
    {r : ChangeRecord} {e : Err} {rest : List (Env × ChangeRecord)}
    (h : process_op env s r = .error e) :
    runLoop s ((env, r) :: rest) = (s, [], some e) := by
  simp only [runLoop, h]

theorem runLoop_cons_ok {env : Env} {s s' : ReplayerState}
    {r : ChangeRecord} {info : Option ProgressInfo}
    {rest : List (Env × ChangeRecord)}
    (h : process_op env s r = .ok (s', info)) :
    runLoop s ((env, r) :: rest)
      = ((runLoop s' rest).1, info.toList ++ (runLoop s' rest).2.1,
         (runLoop s' rest).2.2) := by
  simp only [runLoop, h]

theorem runStates_cons_error {env : Env} {s : ReplayerState}
    {r : ChangeRecord} {e : Err} {rest : List (Env × ChangeRecord)}
    (h : process_op env s r = .error e) :
    runStates s ((env, r) :: rest) = [s] := by
  simp only [runStates, h]

theorem runStates_cons_ok {env : Env} {s s' : ReplayerState}
    {r : ChangeRecord} {info : Option ProgressInfo}
    {rest : List (Env × ChangeRecord)}
    (h : process_op env s r = .ok (s', info)) :
    runStates s ((env, r) :: rest) = s :: runStates s' rest := by
  simp only [runStates, h]

theorem appliedRecords_cons_error {env : Env} {s : ReplayerState}
    {r : ChangeRecord} {e : Err} {rest : List (Env × ChangeRecord)}
    (h : process_op env s r = .error e) :
    appliedRecords s ((env, r) :: rest) = [] := by
  simp only [appliedRecords, h]

theorem appliedRecords_cons_ok {env : Env} {s s' : ReplayerState}
    {r : ChangeRecord} {info : Option ProgressInfo}
    {rest : List (Env × ChangeRecord)}
    (h : process_op env s r = .ok (s', info)) :
    appliedRecords s ((env, r) :: rest) = r :: appliedRecords s' rest := by
  simp only [appliedRecords, h]

end OplogReplayer

/-! ### The claims -/

/-- Claim C1: the spec states that the insert applier treats a
duplicate-key condition as success, so that applying the same insert
record twice leaves the destination identical to applying it once.  The
code does not do this: `OplogReplayer.insert` issues the write with
`safe=True` and no duplicate-key handling, so re-applying an insert whose
`_id` is already present raises `DuplicateKeyError` instead of
succeeding.  This theorem evaluates the code at the failing input: the
first apply of `insRec` succeeds, the second apply of the very same
record fails with the duplicate-key error. -/
theorem insert_replay_duplicate_key_raises :
    OplogReplayer.process_op (goodEnv 20) initState insRec
      = .ok (OplogReplayer.stateAfter (goodEnv 20) initState insRec, none)
  ∧ OplogReplayer.process_op (goodEnv 21)
      (OplogReplayer.stateAfter (goodEnv 20) initState insRec) insRec
      = .error .duplicateKey :=
  ⟨rfl, rfl⟩

/-- Claim C3: the spec states that a checkpoint-save failure is fatal for
the run and never silently swallowed.  The code issues the checkpoint
update without `safe=True` (an unacknowledged write), so a server-side
failure of the save is swallowed: `process_op` still returns success, the
stored checkpoint is left behind (here: still absent), and the counter
advances as if nothing happened; the same server failure on an
acknowledged write would have raised `OperationFailure`. -/
theorem ckpt_write_failure_swallowed :
    OplogReplayer.process_op (ckptFailEnv 20) initState insRec
      = .ok (OplogReplayer.stateAfter (ckptFailEnv 20) initState insRec, none)
  ∧ ckptAt (OplogReplayer.stateAfter (ckptFailEnv 20) initState insRec) = none
  ∧ (OplogReplayer.stateAfter (ckptFailEnv 20) initState insRec).replay_count
      = 1
  ∧ mongoUpdate true true true (initState.dest settingsKey)
      (idSelector "testsource")
      (.setFields [("value", tsValue (some { time := 10, inc := 1 }))])
      = .error .operationFailure :=
  ⟨rfl, by decide, rfl, rfl⟩

/-- Claim C6: `_update_lastts` idempotently upserts the single checkpoint
document keyed by the replica-set identity: a save never raises a
uniqueness violation, saving the same token again changes nothing and
adds no row, a load after a save returns the saved token, and the number
of checkpoint rows after a save is exactly one when there was none and
unchanged otherwise. -/
theorem save_idempotent_upsert (s : ReplayerState) (t : Timestamp) :
    OplogReplayer.update_lastts false { s with ts := some t }
        = .ok (OplogReplayer.savedState { s with ts := some t })
  ∧ OplogReplayer.get_lastts (OplogReplayer.savedState { s with ts := some t })
        = .ok (some (Value.vTs t))
  ∧ OplogReplayer.update_lastts false
        (OplogReplayer.savedState { s with ts := some t })
        = .ok (OplogReplayer.savedState { s with ts := some t })
  ∧ ckptRowCount (OplogReplayer.savedState { s with ts := some t })
        = (if ckptRowCount { s with ts := some t } = 0 then 1
           else ckptRowCount { s with ts := some t }) := by
  refine ⟨OplogReplayer.update_lastts_eq_ok _, ?_, ?_,
    ckptRowCount_savedState _⟩
  · rw [get_lastts_savedState]
    rfl
  · rw [OplogReplayer.update_lastts_eq_ok, savedState_savedState]

/-- Claim C7: `_get_lastts` must not fail when no checkpoint document
exists: the not-found case is a normal outcome, returning `None`. -/
theorem load_not_found_ok (s : ReplayerState)
    (h : (s.dest settingsKey).find?
        (matchesSel (idSelector s.replicaset)) = none) :
    OplogReplayer.get_lastts s = .ok none := by
  simp only [OplogReplayer.get_lastts, h]

/-- Witness for C7: a fresh destination has no checkpoint document, and
loading it returns `None` without error. -/
theorem load_not_found_ok_witness :
    (initState.dest settingsKey).find?
        (matchesSel (idSelector initState.replicaset)) = none
  ∧ OplogReplayer.get_lastts initState = .ok none :=
  ⟨rfl, load_not_found_ok initState rfl⟩

/-- Claim C8: every progress observation that `process_op` emits reports
a replication lag equal to wall-clock now minus the time component of the
ordering token of the record just applied (which is the last applied
token at that moment), together with the cumulative applied count. -/
theorem progress_lag (env : OplogReplayer.Env) (s s' : ReplayerState)
    (r : ChangeRecord) (info : ProgressInfo)
    (h : OplogReplayer.process_op env s r = .ok (s', some info)) :
    info.delay = (env.now : Int) - (r.ts.time : Int)
  ∧ s'.ts = some r.ts
  ∧ info.count = s'.replay_count := by
  obtain ⟨hrs, hts, hcount, hinfo⟩ :=
    OplogReplayer.process_op_ok_fields_any h
  by_cases hc : (s.replay_count + 1) % 100 = 0
  · rw [if_pos hc] at hinfo
    injection hinfo with hi
    rw [hi]
    exact ⟨rfl, hts, by rw [hcount]; rfl⟩
  · rw [if_neg hc] at hinfo
    exact Option.noConfusion hinfo

/-- Witness for C8: the hundredth record emits an observation whose lag
is wall-clock 20 minus token time 10. -/
theorem progress_lag_witness :
    OplogReplayer.process_op (goodEnv 20) s99 insRec
      = .ok (OplogReplayer.stateAfter (goodEnv 20) s99 insRec,
             some { delay := 10, count := 100 })
  ∧ ({ delay := 10, count := 100 } : ProgressInfo).delay
      = ((goodEnv 20).now : Int) - (insRec.ts.time : Int)
  ∧ ({ delay := 10, count := 100 } : ProgressInfo).count
      = (OplogReplayer.stateAfter (goodEnv 20) s99 insRec).replay_count :=
  ⟨rfl,
   (progress_lag (goodEnv 20) s99 _ insRec _ rfl).1,
   (progress_lag (goodEnv 20) s99 _ insRec _ rfl).2.2⟩

/-- Claim C2: for every successfully applied record the engine, in this
order, (a) saves the record's ordering token as the checkpoint, (b)
increments the applied count, (c) emits a progress observation on every
100th record; a failing step raises before the next record is read, so
the run stops with the state unchanged and the checkpoint is never
advanced before the apply completes nor past a record that was not
applied.  (The checkpoint write is assumed performed by the server; its
failure mode is claim C3's subject.) -/
theorem process_op_checkpoint_order (env : OplogReplayer.Env)
    (s : ReplayerState) (r : ChangeRecord)
    (hck : env.ckptFails = false) :
    (∀ s' info, OplogReplayer.process_op env s r = .ok (s', info) →
       ckptAt s' = some (Value.vTs r.ts)
       ∧ s'.replay_count = s.replay_count + 1
       ∧ info = (if s'.replay_count % 100 = 0 then
            some (OplogReplayer.print_replication_info env.now r.ts
              s'.replay_count)
          else none))
  ∧ (∀ e, OplogReplayer.applyRecord env.applyFails s.dest r = .error e →
       OplogReplayer.process_op env s r = .error e)
  ∧ (∀ e rest, OplogReplayer.process_op env s r = .error e →
       OplogReplayer.runLoop s ((env, r) :: rest) = (s, [], some e))
  ∧ (∀ s' info rest, OplogReplayer.process_op env s r = .ok (s', info) →
       OplogReplayer.runLoop s ((env, r) :: rest)
         = ((OplogReplayer.runLoop s' rest).1,
            info.toList ++ (OplogReplayer.runLoop s' rest).2.1,
            (OplogReplayer.runLoop s' rest).2.2)) := by
  refine ⟨?_, ?_, ?_, ?_⟩
  · intro s' info h
    obtain ⟨hrs, hts, hcount, hckpt, hinfo⟩ :=
      OplogReplayer.process_op_ok_fields hck h
    refine ⟨hckpt, hcount, ?_⟩
    rw [hcount]
    exact hinfo
  · intro e ha
    exact OplogReplayer.process_op_apply_error ha
  · intro e rest h
    exact OplogReplayer.runLoop_cons_error h
  · intro s' info rest h
    exact OplogReplayer.runLoop_cons_ok h

/-- Witness for C2: one good-environment step from a fresh state saves
the record's token, counts one applied record, and emits nothing (not the
100th record). -/
theorem process_op_checkpoint_order_witness :
    (goodEnv 20).ckptFails = false
  ∧ OplogReplayer.process_op (goodEnv 20) initState insRec
      = .ok (OplogReplayer.stateAfter (goodEnv 20) initState insRec, none)
  ∧ ckptAt (OplogReplayer.stateAfter (goodEnv 20) initState insRec)
      = some (Value.vTs { time := 10, inc := 1 })
  ∧ (OplogReplayer.stateAfter (goodEnv 20) initState insRec).replay_count
      = initState.replay_count + 1 :=
  ⟨rfl, rfl,
   ((process_op_checkpoint_order (goodEnv 20) initState insRec rfl).1
      _ none rfl).1,
   ((process_op_checkpoint_order (goodEnv 20) initState insRec rfl).1
      _ none rfl).2.1⟩

/-- Claim C5: an update or delete whose selector matches no document of
the addressed destination collection is a no-op success: `process_op`
returns success rather than an error, every data collection (everything
but the settings collection) is unchanged, and the checkpoint still
advances to the record's ordering token. -/
theorem zero_match_noop (env : OplogReplayer.Env) (s : ReplayerState)
    (r : ChangeRecord) (k : String × String)
    (hap : env.applyFails = false) (hck : env.ckptFails = false)
    (hns : destCollKey r.ns = some k)
    (hsel : (∃ o2 m, r.payload = .updateOp o2 m
               ∧ (s.dest k).any (matchesSel o2) = false)
          ∨ (∃ o, r.payload = .deleteOp o
               ∧ (s.dest k).any (matchesSel o) = false)) :
    ∃ s' info, OplogReplayer.process_op env s r = .ok (s', info)
      ∧ (∀ k', k' ≠ settingsKey → s'.dest k' = s.dest k')
      ∧ ckptAt s' = some (Value.vTs r.ts)
      ∧ s'.replay_count = s.replay_count + 1 := by
  have ha : OplogReplayer.applyRecord env.applyFails s.dest r
      = .ok (storeSet s.dest k (s.dest k)) := by
    rcases hsel with ⟨o2, m, hp, hz⟩ | ⟨o, hp, hz⟩
    · rw [OplogReplayer.applyRecord_eq_onColl, hp, hap]
      simp only [OplogReplayer.onColl, hns, OplogReplayer.opWrite,
        mongoUpdate_zero_match hz]
    · rw [OplogReplayer.applyRecord_eq_onColl, hp, hap]
      simp only [OplogReplayer.onColl, hns, OplogReplayer.opWrite,
        mongoRemove_zero_match hz]
  have heq := OplogReplayer.process_op_eq_of_apply_ok ha
  refine ⟨_, _, heq, ?_, ?_, ?_⟩
  · intro k' hk'
    have h1 : (OplogReplayer.savedStateE env.ckptFails
        { s with dest := storeSet s.dest k (s.dest k),
                 ts := some r.ts }).dest k'
        = storeSet s.dest k (s.dest k) k' :=
      OplogReplayer.savedStateE_dest_ne _ _ k' hk'
    rw [show ({ OplogReplayer.savedStateE env.ckptFails
        { s with dest := storeSet s.dest k (s.dest k), ts := some r.ts }
        with replay_count := s.replay_count + 1 } : ReplayerState).dest k'
        = (OplogReplayer.savedStateE env.ckptFails
        { s with dest := storeSet s.dest k (s.dest k),
                 ts := some r.ts }).dest k' from rfl]
    rw [h1]
    unfold storeSet
    by_cases hkk : k' = k
    · rw [if_pos hkk, hkk]
    · rw [if_neg hkk]
  · exact (OplogReplayer.process_op_ok_fields hck heq).2.2.2.1
  · exact (OplogReplayer.process_op_ok_fields hck heq).2.2.1

/-- Witness for C5: the spec's concrete scenario 2, an update whose
selector `nr = 97` matches nothing in the (empty) destination
collection. -/
theorem zero_match_noop_witness :
    ∃ s' info,
      OplogReplayer.process_op (goodEnv 40) initState updRec97
        = .ok (s', info)
      ∧ (∀ k', k' ≠ settingsKey → s'.dest k' = initState.dest k')
      ∧ ckptAt s' = some (Value.vTs { time := 12, inc := 1 })
      ∧ s'.replay_count = initState.replay_count + 1 :=
  zero_match_noop (goodEnv 40) initState updRec97 ("testdb", "testcoll")
    rfl rfl (by decide)
    (Or.inl ⟨[("nr", Value.vInt 97)],
      .setFields [("content", Value.vStr "newContent")], rfl, by decide⟩)

/-- Claim C9: the destination collection is resolved by splitting the
namespace at its first dot — database name before it, collection name
(which may itself contain dots) after it; a namespace containing no dot
fails the two-variable unpacking with a `ValueError`, so every insert,
update and delete presupposes a dotted namespace. -/
theorem dest_coll_split (ns : String) :
    ('.' ∈ ns.toList →
       ∃ db coll, destCollKey ns = some (db, coll)
         ∧ ns.toList = db.toList ++ '.' :: coll.toList
         ∧ '.' ∉ db.toList)
  ∧ ('.' ∉ ns.toList → destCollKey ns = none)
  ∧ (∀ (env : OplogReplayer.Env) (s : ReplayerState) (r : ChangeRecord),
       r.ns = ns → '.' ∉ ns.toList →
       OplogReplayer.process_op env s r = .error .valueError) := by
  refine ⟨?_, ?_, ?_⟩
  · intro hdot
    cases hs : splitFirstDot ns.toList with
    | none =>
      rw [splitFirstDot_none] at hs
      exact absurd hdot hs
    | some p =>
      obtain ⟨hl, hnd⟩ := splitFirstDot_some
        (show splitFirstDot ns.toList = some (p.1, p.2) by rw [hs])
      refine ⟨String.mk p.1, String.mk p.2, ?_, hl, hnd⟩
      simp only [destCollKey, hs]
  · intro hnd
    simp only [destCollKey, splitFirstDot_none.mpr hnd]
  · intro env s r hr hnd
    have hnone : destCollKey r.ns = none := by
      rw [hr]
      simp only [destCollKey, splitFirstDot_none.mpr hnd]
    exact OplogReplayer.process_op_apply_error
      (OplogReplayer.applyRecord_no_dot hnone)

/-- Witness for C9: `mydb.tweets` splits into `mydb` and `tweets`, while
the dotless `mydbtweets` resolves to nothing and makes `process_op`
raise. -/
theorem dest_coll_split_witness :
    ('.' ∈ "mydb.tweets".toList)
  ∧ (∃ db coll, destCollKey "mydb.tweets" = some (db, coll)
       ∧ "mydb.tweets".toList = db.toList ++ '.' :: coll.toList
       ∧ '.' ∉ db.toList)
  ∧ ('.' ∉ "mydbtweets".toList)
  ∧ destCollKey "mydbtweets" = none
  ∧ OplogReplayer.process_op (goodEnv 0) initState noDotRec
      = .error .valueError :=
  ⟨by decide,
   (dest_coll_split "mydb.tweets").1 (by decide),
   by decide,
   (dest_coll_split "mydbtweets").2.1 (by decide),
   (dest_coll_split "mydbtweets").2.2 (goodEnv 0) initState noDotRec rfl
     (by decide)⟩

/-- Claim C10: processing one record for namespace `ns` modifies at most
the destination collection `ns` addresses and the checkpoint document
(`_id` `'<replicaset>-lastts'`) of the `oplogreplay.settings` collection:
every other collection is left unchanged, and — unless `ns` itself
addresses the settings collection — every settings document other than
the checkpoint document is preserved. -/
theorem process_op_frame (env : OplogReplayer.Env) (s s' : ReplayerState)
    (r : ChangeRecord) (info : Option ProgressInfo)
    (h : OplogReplayer.process_op env s r = .ok (s', info)) :
    s'.replicaset = s.replicaset
  ∧ (∀ k, destCollKey r.ns ≠ some k → k ≠ settingsKey →
      s'.dest k = s.dest k)
  ∧ (destCollKey r.ns ≠ some settingsKey →
      (s'.dest settingsKey).filter
          (fun d => ! matchesSel (idSelector s.replicaset) d)
        = (s.dest settingsKey).filter
          (fun d => ! matchesSel (idSelector s.replicaset) d)) := by
  refine ⟨(OplogReplayer.process_op_ok_fields_any h).1, ?_, ?_⟩
  · intro k hk hks
    cases ha : OplogReplayer.applyRecord env.applyFails s.dest r with
    | error e =>
      rw [OplogReplayer.process_op_apply_error ha] at h
      exact absurd h (by simp)
    | ok dest' =>
      have heq := OplogReplayer.process_op_eq_of_apply_ok ha
      rw [heq] at h
      have h' := h
      simp only [Except.ok.injEq, Prod.mk.injEq] at h'
      rw [← h'.1]
      rw [show ({ OplogReplayer.savedStateE env.ckptFails
          { s with dest := dest', ts := some r.ts }
          with replay_count := s.replay_count + 1 } : ReplayerState).dest k
          = (OplogReplayer.savedStateE env.ckptFails
          { s with dest := dest', ts := some r.ts }).dest k from rfl]
      rw [OplogReplayer.savedStateE_dest_ne _ _ k hks]
      exact OplogReplayer.applyRecord_frame ha k hk
  · intro hns
    cases ha : OplogReplayer.applyRecord env.applyFails s.dest r with
    | error e =>
      rw [OplogReplayer.process_op_apply_error ha] at h
      exact absurd h (by simp)
    | ok dest' =>
      have heq := OplogReplayer.process_op_eq_of_apply_ok ha
      rw [heq] at h
      have h' := h
      simp only [Except.ok.injEq, Prod.mk.injEq] at h'
      rw [← h'.1]
      have hX : dest' settingsKey = s.dest settingsKey :=
        OplogReplayer.applyRecord_frame ha settingsKey hns
      rw [show ({ OplogReplayer.savedStateE env.ckptFails
          { s with dest := dest', ts := some r.ts }
          with replay_count := s.replay_count + 1 } : ReplayerState).dest
            settingsKey
          = (OplogReplayer.savedStateE env.ckptFails
          { s with dest := dest', ts := some r.ts }).dest settingsKey
          from rfl]
      cases hb : env.ckptFails with
      | true =>
        simp only [OplogReplayer.savedStateE, if_true]
        rw [storeSet_get_self]
        rw [hX]
      | false =>
        simp only [OplogReplayer.savedStateE, Bool.false_eq_true, if_false]
        have hf := OplogReplayer.savedState_filter
          { s with dest := dest', ts := some r.ts }
        rw [show ({ s with dest := dest', ts := some r.ts }
            : ReplayerState).replicaset = s.replicaset from rfl] at hf
        rw [hf]
        rw [show ({ s with dest := dest', ts := some r.ts }
            : ReplayerState).dest settingsKey = dest' settingsKey from rfl]
        rw [hX]

/-- Claim C4: along any run whose checkpoint writes the server performs
(claim C3 covers the failing writes), the stored checkpoint at every
point equals the ordering token of the most recently applied record —
the pre-run value while nothing has been applied, never a later token —
and, the feed's tokens being non-decreasing and not before the resume
point, the stored checkpoint is non-decreasing over time. -/
theorem checkpoint_monotone (s : ReplayerState)
    (steps : List (OplogReplayer.Env × ChangeRecord))
    (hck : ∀ p ∈ steps, p.1.ckptFails = false)
    (hchain : List.Chain' Timestamp.Le (steps.map (fun p => p.2.ts)))
    (hinit : ∀ p, steps.head? = some p →
       leOV (ckptAt s) (some (Value.vTs p.2.ts)) = true) :
    ckptTrace s steps
      = ckptAt s :: (OplogReplayer.appliedRecords s steps).map
          (fun r => some (Value.vTs r.ts))
  ∧ List.Chain' (fun a b => leOV a b = true) (ckptTrace s steps) := by
  induction steps generalizing s with
  | nil => exact ⟨rfl, List.chain'_singleton _⟩
  | cons p rest ih =>
    obtain ⟨env, r⟩ := p
    have hckr : env.ckptFails = false := hck (env, r) (by simp)
    have hcks : ∀ q ∈ rest, q.1.ckptFails = false := fun q hq =>
      hck q (by simp [hq])
    cases hpo : OplogReplayer.process_op env s r with
    | error e =>
      have htr : ckptTrace s ((env, r) :: rest) = [ckptAt s] := by
        unfold ckptTrace
        rw [OplogReplayer.runStates_cons_error hpo]
        rfl
      rw [htr, OplogReplayer.appliedRecords_cons_error hpo]
      exact ⟨rfl, List.chain'_singleton _⟩
    | ok pr =>
      obtain ⟨s', info⟩ := pr
      have hckpt : ckptAt s' = some (Value.vTs r.ts) :=
        (OplogReplayer.process_op_ok_fields hckr hpo).2.2.2.1
      have htr : ckptTrace s ((env, r) :: rest)
          = ckptAt s :: ckptTrace s' rest := by
        unfold ckptTrace
        rw [OplogReplayer.runStates_cons_ok hpo]
        rfl
      have hchain0 : List.Chain' Timestamp.Le
          (r.ts :: rest.map (fun q => q.2.ts)) := by
        rw [List.map_cons] at hchain
        exact hchain
      have hchain' : List.Chain' Timestamp.Le
          (rest.map (fun q => q.2.ts)) :=
        (List.chain'_cons'.mp hchain0).2
      have hrel : ∀ q, rest.head? = some q → Timestamp.Le r.ts q.2.ts := by
        intro q hq
        apply (List.chain'_cons'.mp hchain0).1
        rw [List.head?_map, hq]
        rfl
      have hinit' : ∀ q, rest.head? = some q →
          leOV (ckptAt s') (some (Value.vTs q.2.ts)) = true := by
        intro q hq
        rw [hckpt]
        simp only [leOV, decide_eq_true_eq]
        exact hrel q hq
      obtain ⟨iheq, ihchain⟩ := ih s' hcks hchain' hinit'
      refine ⟨?_, ?_⟩
      · rw [htr, OplogReplayer.appliedRecords_cons_ok hpo, List.map_cons,
          iheq, hckpt]
      · rw [htr, List.chain'_cons']
        refine ⟨?_, ihchain⟩
        intro y hy
        have hhead : (ckptTrace s' rest).head? = some (ckptAt s') := by
          rw [iheq]
          rfl
        rw [hhead] at hy
        have hyv : y = ckptAt s' := by
          have := hy
          simp only [Option.mem_def, Option.some.injEq] at this
          exact this.symm
        rw [hyv, hckpt]
        exact hinit (env, r) rfl

/-- Witness for C4 on a concrete two-record run: the stored checkpoint
trace is `none`, then the first token, then the second, and it is a
non-decreasing chain. -/
theorem checkpoint_monotone_witness :
    ckptTrace initState runSteps2
      = ckptAt initState
          :: (OplogReplayer.appliedRecords initState runSteps2).map
            (fun r => some (Value.vTs r.ts))
  ∧ List.Chain' (fun a b => leOV a b = true)
      (ckptTrace initState runSteps2) :=
  checkpoint_monotone initState runSteps2 (by decide)
    (by
      rw [show runSteps2.map (fun p => p.2.ts)
          = [{ time := 10, inc := 1 }, { time := 11, inc := 2 }] from rfl]
      rw [List.chain'_cons]
      exact ⟨by decide, List.chain'_singleton _⟩)
    (by
      intro p hp
      rw [show runSteps2.head? = some (goodEnv 20, insRec) from rfl] at hp
      injection hp with hp'
      rw [← hp']
      decide)

/-- Witness for C10 at a concrete step: an insert into `mydb.tweets`
leaves an unrelated collection and the settings documents other than the
checkpoint document untouched. -/
theorem process_op_frame_witness :
    OplogReplayer.process_op (goodEnv 20) initState insRec
      = .ok (OplogReplayer.stateAfter (goodEnv 20) initState insRec, none)
  ∧ (OplogReplayer.stateAfter (goodEnv 20) initState insRec).replicaset
      = initState.replicaset
  ∧ (OplogReplayer.stateAfter (goodEnv 20) initState insRec).dest
        ("otherdb", "othercoll")
      = initState.dest ("otherdb", "othercoll")
  ∧ ((OplogReplayer.stateAfter (goodEnv 20) initState insRec).dest
        settingsKey).filter
        (fun d => ! matchesSel (idSelector initState.replicaset) d)
      = (initState.dest settingsKey).filter
        (fun d => ! matchesSel (idSelector initState.replicaset) d) :=
  ⟨rfl,
   (process_op_frame (goodEnv 20) initState _ insRec none rfl).1,
   (process_op_frame (goodEnv 20) initState _ insRec none rfl).2.1
     ("otherdb", "othercoll") (by decide) (by decide),
   (process_op_frame (goodEnv 20) initState _ insRec none rfl).2.2
     (by decide)⟩

end OplogReplay
